import Mathlib

/-!
Verification of the host-listing client library (`spam_lists/service_models.py`).

The sources of the repository contain `service_models.py` (the listing-service
clients: `HostList`, `DNSBL`, `HpHosts`, `GoogleSafeBrowsing`, `HostCollection`)
together with its test module.  The repository modules `structures.py`
(host values, host factories, `AddressListItem`), `validation.py`
(the `accepts_valid_host` / `accepts_valid_urls` decorators and their
validity predicates) and `exceptions.py` are not among the sources, so those
parts are modelled from the specification; every such definition carries a
doc comment starting with "Modelled from the spec".  Everything else is a
direct translation of `service_models.py`.

Python exceptions are modelled with `Except PyError`; Python sets are
modelled by their iteration sequence (a `List`), with set insertion and
set construction translated explicitly.
-/

namespace SpamLists

/-- Modelled from the spec (section 7, and `exceptions.py`, which is not among
the sources): the error kinds raised by the library, plus the built-in Python
errors (`TypeError`, `AttributeError`, `ValueError`) that evaluation of the
translated code can raise. -/
inductive PyError where
  | invalidHost (msg : String)
  | invalidURL (msg : String)
  | unknownCode (msg : String)
  | unauthorizedAPIKey (msg : String)
  | typeError (msg : String)
  | attributeError (msg : String)
  | valueError (msg : String)
deriving DecidableEq, Repr

deriving instance DecidableEq for Except

/-! ## Host value model

`structures.py` is not among the sources; the host value model is modelled
from the spec, section 3: a host value is either a hostname (an ordered
sequence of labels, most specific first, canonically lowercase) or a
validated IP address (canonical binary form plus version tag). -/

/-- Modelled from the spec: a host value is a hostname (labels, most specific
first) or an IPv4/IPv6 address (canonical numeric form plus version tag). -/
inductive HostValue where
  | hostname (labels : List String)
  | ip4 (octets : List Nat)
  | ip6 (groups : List Nat)
deriving DecidableEq, Repr

/-- Modelled from the spec: `a.is_subdomain(b)` holds for two hostnames when
the label sequence of `b` is a suffix of the label sequence of `a` (so `b` is
`a` itself or an ancestor domain of `a`); it is always false between an IP
address and a hostname and between differing address families, and equality
counts as covering (spec section 8: `h.is_subdomain(h)` is true for every
host value `h`). -/
def HostValue.is_subdomain : HostValue → HostValue → Bool
  | .hostname a, .hostname b => List.isSuffixOf b a
  | .ip4 a, .ip4 b => a == b
  | .ip6 a, .ip6 b => a == b
  | _, _ => false

/-- Modelled from the spec: the canonical text form of a host value
(`to_unicode` in the source). -/
def HostValue.to_unicode : HostValue → String
  | .hostname ls => String.intercalate "." ls
  | .ip4 os => String.intercalate "." (os.map toString)
  | .ip6 gs => String.intercalate ":" (gs.map toString)

/-! ## Parsing raw host strings (the host factories)

The factories live in `structures.py`, which is not among the sources; they
are modelled from the spec, section 4.1: attempt an IP-address parse first,
on failure attempt a hostname parse, and fail with `InvalidHostError` when
both fail.  The string plumbing below works on the character list of the
string so that every definition evaluates by `rfl`/`decide`. -/

/-- Splitting a character list at a separator character; groups are returned
in order and the result is never empty (mirrors Python `str.split(sep)`). -/
def splitOnChar (c : Char) : List Char → List (List Char)
  | [] => [[]]
  | x :: xs =>
    match splitOnChar c xs with
    | [] => [[x]]
    | g :: gs => if x == c then [] :: g :: gs else (x :: g) :: gs

/-- Reading a decimal numeral from a character list; `none` unless the list is
a nonempty string of digits (mirrors Python `int(s)` on the inputs used). -/
def digitsToNat (cs : List Char) : Option Nat :=
  if cs.isEmpty then none
  else if cs.all Char.isDigit then
    some (cs.foldl (fun n c => n * 10 + (c.toNat - 48)) 0)
  else none

/-- Modelled from the spec: one dotted-quad component of an IPv4 literal. -/
def ip4Octet (cs : List Char) : Option Nat :=
  match digitsToNat cs with
  | some n => if n ≤ 255 then some n else none
  | none => none

/-- Modelled from the spec: parse an IPv4 literal (four dotted decimal octets,
each at most 255).  IPv6 literal parsing is not modelled; no claim involves an
IPv6 literal. -/
def parse_ip4 (s : String) : Option HostValue :=
  match (splitOnChar '.' s.data).mapM ip4Octet with
  | some os => if os.length == 4 then some (.ip4 os) else none
  | none => none

/-- Modelled from the spec: a character allowed inside a hostname label. -/
def isLabelChar (c : Char) : Bool :=
  c.isAlphanum || c == '-'

/-- Modelled from the spec: a valid DNS-style label is nonempty, made of
alphanumeric characters and hyphens, and neither starts nor ends with a
hyphen. -/
def validLabel (l : List Char) : Bool :=
  match l with
  | [] => false
  | c :: _ => c != '-' && l.getLastD '-' != '-' && l.all isLabelChar

/-- Modelled from the spec: parse a hostname into its label sequence (most
specific first), lowercased to the canonical form. -/
def parse_hostname (s : String) : Option HostValue :=
  let labels := splitOnChar '.' (s.data.map Char.toLower)
  if labels.all validLabel then some (.hostname (labels.map String.mk))
  else none

/-- Message of the `InvalidHostError` raised by the modelled host factory. -/
def invalid_host_msg (s : String) : String :=
  s ++ " is not a valid host"

/-- Modelled from the spec: the general "IP address or hostname" host factory
(`hostname_or_ip` in the source): attempt the IP-address interpretation
first, on failure attempt the hostname interpretation; if both fail, fail
with `InvalidHostError`. -/
def hostname_or_ip (s : String) : Except PyError HostValue :=
  match parse_ip4 s with
  | some h => .ok h
  | none =>
    match parse_hostname s with
    | some h => .ok h
    | none => .error (.invalidHost (invalid_host_msg s))

/-- Modelled from the spec: the boolean host-validity predicate used by the
`accepts_valid_host` decorator of `validation.py` (not among the sources);
a string is a valid host when it parses as an IP address or as a hostname. -/
def is_valid_host (s : String) : Bool :=
  (parse_ip4 s).isSome || (parse_hostname s).isSome

/-! ## AddressListItem -/

/-- Translation of `AddressListItem` (declared in `structures.py`, not among
the sources; modelled from the spec, section 3): the matched value text, the
identity of the source that produced the match, and the classification.  The
classification component mirrors the dynamic value passed by
`HostList.lookup`, which may be the `None` of a no-match tuple. -/
structure AddressListItem where
  value : String
  source : String
  classification : Option (List String)
deriving DecidableEq, Repr

/-! ## HostList — the base class of listing-service clients

`HostList` (service_models.py, lines 23-134) is generic in the host factory
passed to its constructor and in the two service primitives `_contains` and
`_get_match_and_classification` supplied by subclasses; the translation takes
those as explicit arguments.  The `accepts_valid_host` / `accepts_valid_urls`
decorators live in `validation.py`, which is not among the sources, and are
modelled from the spec (sections 6 and 7) and from the docstrings in
`service_models.py`. -/

/-- Message of the `InvalidHostError` raised by the modelled
`accepts_valid_host` decorator. -/
def decorator_host_msg (s : String) : String :=
  "Given value " ++ s ++ " is not a valid host"

/-- Message of the `InvalidURLError` raised by the modelled
`accepts_valid_urls` decorator. -/
def invalid_urls_msg : String :=
  "Given urls are not valid"

/-- Modelled from the spec: the `accepts_valid_urls` decorator raises an
`InvalidURLError` when any URL of the argument sequence fails the external
URL-validity predicate, before the decorated body runs; otherwise the body
runs unchanged. -/
def accepts_valid_urls (url_valid : String → Bool) (urls : List String)
    (body : Except PyError α) : Except PyError α :=
  if urls.all url_valid then body else .error (.invalidURL invalid_urls_msg)

namespace HostList

/-- Translation of `HostList.__contains__` (lines 57-71) together with its
modelled `accepts_valid_host` decorator: for a string failing the
host-validity predicate the decorator raises `InvalidHostError`; otherwise
the host factory runs, an `InvalidHostError` it raises is degraded to
`False`, any other error propagates, and on success the subclass primitive
`_contains` decides membership. -/
def contains (host_valid : String → Bool)
    (factory : String → Except PyError HostValue)
    (svc_contains : HostValue → Bool) (s : String) : Except PyError Bool :=
  if host_valid s then
    match factory s with
    | .error (.invalidHost _) => .ok false
    | .error e => .error e
    | .ok host_object => .ok (svc_contains host_object)
  else .error (.invalidHost (decorator_host_msg s))

/-- Translation of `HostList.lookup` (lines 73-94) together with its modelled
`accepts_valid_host` decorator: an `InvalidHostError` raised by the factory
yields `None`; otherwise the subclass primitive
`_get_match_and_classification` runs, and a non-`None` matched item is
wrapped into an `AddressListItem` carrying its canonical text, the service
identity and the classification. -/
def lookup (host_valid : String → Bool)
    (factory : String → Except PyError HostValue)
    (get_match : HostValue → Except PyError (Option HostValue × Option (List String)))
    (source_id : String) (s : String) : Except PyError (Option AddressListItem) :=
  if host_valid s then
    match factory s with
    | .error (.invalidHost _) => .ok none
    | .error e => .error e
    | .ok host_object =>
      match get_match host_object with
      | .error e => .error e
      | .ok (some host_item, classification) =>
        .ok (some ⟨host_item.to_unicode, source_id, classification⟩)
      | .ok (none, _) => .ok none
  else .error (.invalidHost (decorator_host_msg s))

/-- The generator `any(urlparse(u).hostname in self for u in urls)` inside
`HostList.any_match` (line 106): scan the urls in order, testing membership
of each extracted host, stopping at the first match; errors raised by a
membership test propagate. -/
def any_match_scan (host_valid : String → Bool)
    (factory : String → Except PyError HostValue)
    (svc_contains : HostValue → Bool) (host_of : String → String) :
    List String → Except PyError Bool
  | [] => .ok false
  | u :: rest => do
    let b ← contains host_valid factory svc_contains (host_of u)
    if b then pure true else any_match_scan host_valid factory svc_contains host_of rest

/-- Translation of `HostList.any_match` (lines 96-106): the
`accepts_valid_urls` decorator, then `any` over the per-URL membership
tests.  `host_of` stands for the external `urlparse(u).hostname`. -/
def any_match (url_valid : String → Bool) (host_valid : String → Bool)
    (factory : String → Except PyError HostValue)
    (svc_contains : HostValue → Bool) (host_of : String → String)
    (urls : List String) : Except PyError Bool :=
  accepts_valid_urls url_valid urls
    (any_match_scan host_valid factory svc_contains host_of urls)

/-- The generator body of `HostList.lookup_matching` (lines 118-123): look up
each extracted host in order and emit the non-`None` items. -/
def lookup_matching_scan (host_valid : String → Bool)
    (factory : String → Except PyError HostValue)
    (get_match : HostValue → Except PyError (Option HostValue × Option (List String)))
    (source_id : String) (host_of : String → String) :
    List String → Except PyError (List AddressListItem)
  | [] => .ok []
  | u :: rest => do
    let item ← lookup host_valid factory get_match source_id (host_of u)
    let tail ← lookup_matching_scan host_valid factory get_match source_id host_of rest
    pure (match item with | some i => i :: tail | none => tail)

/-- Translation of `HostList.lookup_matching` (lines 108-123), fully
consumed. -/
def lookup_matching (url_valid : String → Bool) (host_valid : String → Bool)
    (factory : String → Except PyError HostValue)
    (get_match : HostValue → Except PyError (Option HostValue × Option (List String)))
    (source_id : String) (host_of : String → String)
    (urls : List String) : Except PyError (List AddressListItem) :=
  accepts_valid_urls url_valid urls
    (lookup_matching_scan host_valid factory get_match source_id host_of urls)

/-- The generator body of `HostList.filter_matching` (lines 133-134): keep, in
order, the urls whose extracted host is a member. -/
def filter_matching_scan (host_valid : String → Bool)
    (factory : String → Except PyError HostValue)
    (svc_contains : HostValue → Bool) (host_of : String → String) :
    List String → Except PyError (List String)
  | [] => .ok []
  | u :: rest => do
    let b ← contains host_valid factory svc_contains (host_of u)
    let tail ← filter_matching_scan host_valid factory svc_contains host_of rest
    pure (if b then u :: tail else tail)

/-- Translation of `HostList.filter_matching` (lines 125-134), fully
consumed. -/
def filter_matching (url_valid : String → Bool) (host_valid : String → Bool)
    (factory : String → Except PyError HostValue)
    (svc_contains : HostValue → Bool) (host_of : String → String)
    (urls : List String) : Except PyError (List String) :=
  accepts_valid_urls url_valid urls
    (filter_matching_scan host_valid factory svc_contains host_of urls)

end HostList

/-! ## HostCollection -/

/-- Translation of the state of a `HostCollection` (lines 376-393): an
identifier, the single shared classification set, and the member set of host
values, modelled by its iteration sequence. -/
structure HostCollection where
  identifier : String
  classification : List String
  hosts : List HostValue
deriving DecidableEq, Repr

namespace HostCollection

/-- The membership test `host_object.is_subdomain(u) or host_object == u`
shared verbatim by `HostCollection._contains` (line 397) and
`HostCollection._get_match_and_classification` (line 403). -/
def member_match (query member : HostValue) : Bool :=
  query.is_subdomain member || query == member

/-- Translation of `HostCollection._contains` (lines 395-398). -/
def contains_primitive (c : HostCollection) (query : HostValue) : Bool :=
  c.hosts.any (member_match query)

/-- Translation of `HostCollection._get_match_and_classification`
(lines 400-405): return the first member matched by the query together with
the shared classification, else the `(None, None)` tuple. -/
def get_match_and_classification (c : HostCollection) (query : HostValue) :
    Option HostValue × Option (List String) :=
  match c.hosts.find? (member_match query) with
  | some h => (some h, some c.classification)
  | none => (none, none)

/-- Message of the `TypeError` raised by the zero-argument call
`host_obj.is_subdomain()` at line 416. -/
def is_subdomain_arity_msg : String :=
  "is_subdomain() missing 1 required positional argument"

/-- Message of the `AttributeError` raised when `HostCollection.add` runs
before `HostList.__init__` has assigned `self._host_factory`. -/
def host_factory_attr_msg : String :=
  "HostCollection object has no attribute _host_factory"

/-- Translation of the member scan of `HostCollection.add` (lines 415-421).
Each iteration of `for h in self.hosts` first evaluates the condition
`host_obj.is_subdomain() or host_obj == h`; `is_subdomain` takes one
positional argument (`HostValue.is_subdomain`, spec section 3), so the
zero-argument call raises `TypeError` on the first iteration, for any
`host_obj`.  The superdomain-removal branch below it
(`if h.is_subdomain(host_obj): self.hosts.remove(h); break`) is therefore
unreachable, and the scan returns normally only when the member set is
empty. -/
def add_scan : List HostValue → Except PyError Unit
  | [] => .ok ()
  | _ :: _ => .error (.typeError is_subdomain_arity_msg)

/-- Python `set.add` under structural equality: insert the value unless an
equal member is present. -/
def set_add (hosts : List HostValue) (h : HostValue) : List HostValue :=
  if hosts.contains h then hosts else hosts ++ [h]

/-- Translation of `HostCollection.add` (lines 407-423).  The factory slot is
`none` while the constructor has not yet assigned `self._host_factory`
(see `init` below), in which case reading the attribute raises
`AttributeError`; otherwise the factory normalizes the raw string
(propagating `InvalidHostError`), the member scan runs, and on normal return
of the scan the new value is inserted. -/
def add (factory : Option (String → Except PyError HostValue))
    (c : HostCollection) (host_value : String) : Except PyError HostCollection :=
  match factory with
  | none => .error (.attributeError host_factory_attr_msg)
  | some f => do
    let host_obj ← f host_value
    add_scan c.hosts
    pure { c with hosts := set_add c.hosts host_obj }

/-- A call of `add` on a fully constructed collection, whose
`_host_factory` is `hostname_or_ip` (line 393). -/
def add_value (c : HostCollection) (host_value : String) : Except PyError HostCollection :=
  add (some hostname_or_ip) c host_value

/-- Translation of `HostCollection.__init__` (lines 376-393): store the
identifier and the classification (a Python set of strings), start from an
empty member set, and `add` each initial raw host string — while
`self._host_factory` is still unassigned, since `super().__init__`, which
assigns it, only runs after the loop. -/
def init (identifier : String) (classification : List String)
    (hosts : List String) : Except PyError HostCollection := do
  let c ← hosts.foldlM (add none) ⟨identifier, classification.dedup, []⟩
  pure c

/-- Translation of `HostCollection.__contains__`: the `HostList` method with
this collection's factory (`hostname_or_ip`) and `_contains` primitive. -/
def contains (c : HostCollection) (s : String) : Except PyError Bool :=
  HostList.contains is_valid_host hostname_or_ip (c.contains_primitive) s

/-- Translation of `HostCollection.lookup`: the `HostList` method with this
collection's factory and `_get_match_and_classification` primitive. -/
def lookup (c : HostCollection) (s : String) : Except PyError (Option AddressListItem) :=
  HostList.lookup is_valid_host hostname_or_ip
    (fun q => .ok (c.get_match_and_classification q)) c.identifier s

end HostCollection

/-! ## DNSBL

`DNSBL` (lines 136-196) queries a DNS blacklist; the DNS transport is an
external collaborator, so the answer of `self._query(host_object)` — `None`
for `NXDOMAIN`, otherwise the sequence of answer records rendered by
`to_text()` — is an explicit argument of the translation.  The
classification map is a constructor argument in the source and is likewise
an explicit function argument, raising `UnknownCodeError` for codes it
cannot decode. -/

namespace DNSBL

/-- Translation of `int(a.to_text().split('.')[-1])` (line 189): the last
dotted component of an answer record, read as a decimal integer; a
non-numeral raises Python `ValueError`. -/
def last_octet_code (record_text : String) : Except PyError Nat :=
  match digitsToNat ((splitOnChar '.' record_text.data).getLastD []) with
  | some n => .ok n
  | none => .error (.valueError "invalid literal for int with base 10")

/-- Translation of the classification-accumulating loop of
`DNSBL._get_match_and_classification` (lines 187-190): starting from the
empty set, union in the classification of the last-octet code of each answer
record; the first failing decode raises. -/
def collect_classification (cmap : Nat → Except PyError (List String))
    (answer : List String) : Except PyError (List String) :=
  answer.foldlM (fun acc a => do
    let code ← last_octet_code a
    let cls ← cmap code
    pure (acc.union cls)) []

/-- Translation of `DNSBL._get_match_and_classification` (lines 179-196),
with `answer` the result of the external DNS query (`none` when the query
returned `NXDOMAIN`).  An `UnknownCodeError` raised while decoding is
re-raised as an `UnknownCodeError` whose message is the original message
followed by a line naming the source (`str(self)` is the service
identifier, line 172-173); any other error propagates unchanged. -/
def get_match_and_classification (identifier : String)
    (cmap : Nat → Except PyError (List String))
    (answer : Option (List String)) (host_object : HostValue) :
    Except PyError (Option HostValue × Option (List String)) :=
  match answer with
  | none => .ok (none, none)
  | some records =>
    match collect_classification cmap records with
    | .ok classification => .ok (some host_object, some classification)
    | .error (.unknownCode m) =>
      .error (.unknownCode (m ++ "\nSource:" ++ identifier))
    | .error e => .error e

end DNSBL

/-! ## GoogleSafeBrowsing

`GoogleSafeBrowsing` (lines 245-367).  The HTTP POST transport is an
external collaborator: the translation takes `post` as a function from the
chunk of urls in the request body to the response (status code and body
text). -/

/-- An HTTP response as consumed by the safe-browsing client: status code
and body text. -/
structure GsbResponse where
  status_code : Nat
  text : String
deriving DecidableEq, Repr

namespace GoogleSafeBrowsing

/-- Translation of `GoogleSafeBrowsing.max_urls_per_request` (line 249). -/
def max_urls_per_request : Nat := 500

/-- Translation of the chunking loop
`for i in range(0, len(urls), self.max_urls_per_request):
chunk = urls[i:i+self.max_urls_per_request]` (lines 311-313): the
consecutive slices of at most `max_urls_per_request` urls. -/
def chunks : List String → List (List String)
  | [] => []
  | u :: rest =>
    (u :: rest.take (max_urls_per_request - 1)) ::
      chunks (rest.drop (max_urls_per_request - 1))
termination_by l => l.length
decreasing_by
  simp only [List.length_drop, List.length_cons]
  omega

/-- Translation of the body of `GoogleSafeBrowsing._query` (lines 300-317)
applied to an already deduplicated url list: POST each chunk once, in order,
and yield the pairs whose response status is 200. -/
def query_scan (post : List String → GsbResponse) :
    List (List String) → List (List String × GsbResponse)
  | [] => []
  | c :: rest =>
    let response := post c
    (if response.status_code == 200 then [(c, response)] else []) ++
      query_scan post rest

/-- Translation of `GoogleSafeBrowsing._query` (lines 300-317), fully
consumed: `urls = list(set(urls))` removes duplicates (modelled by
`List.dedup`; the iteration order of a Python set is unspecified), then the
chunking loop posts each chunk and yields those with status 200. -/
def query (post : List String → GsbResponse) (urls : List String) :
    List (List String × GsbResponse) :=
  query_scan post (chunks urls.dedup)

/-- Translation of `GoogleSafeBrowsing.any_match` (lines 319-328): the
`accepts_valid_urls` decorator, then `any(self._query(urls))`. -/
def any_match (url_valid : String → Bool) (post : List String → GsbResponse)
    (urls : List String) : Except PyError Bool :=
  accepts_valid_urls url_valid urls (.ok (!(query post urls).isEmpty))

/-- Translation of Python `str.splitlines` on the response bodies used here
(lines separated by a newline character). -/
def splitlines (s : String) : List String :=
  (splitOnChar '\n' s.data).map String.mk

/-- Translation of `GoogleSafeBrowsing._get_classification_per_matching`
(lines 330-342), fully consumed: zip each 200-status chunk with the lines of
its response body and keep the pairs whose class string is not "ok". -/
def classification_per_matching (post : List String → GsbResponse)
    (urls : List String) : List (String × String) :=
  (query post urls).flatMap (fun p =>
    (p.1.zip (splitlines p.2.text)).filter (fun q => q.2 != "ok"))

/-- Translation of `GoogleSafeBrowsing.lookup_matching` (lines 344-355),
fully consumed: wrap each matching url into an `AddressListItem` whose
classification is the comma-split class string (a Python set, modelled by
`dedup`). -/
def lookup_matching (url_valid : String → Bool)
    (post : List String → GsbResponse) (urls : List String) :
    Except PyError (List AddressListItem) :=
  accepts_valid_urls url_valid urls
    (.ok ((classification_per_matching post urls).map (fun q =>
      ⟨q.1, "GoogleSafeBrowsing", some (((splitOnChar ',' q.2.data).map String.mk).dedup)⟩)))

/-- Translation of `GoogleSafeBrowsing.filter_matching` (lines 357-367),
fully consumed. -/
def filter_matching (url_valid : String → Bool)
    (post : List String → GsbResponse) (urls : List String) :
    Except PyError (List String) :=
  accepts_valid_urls url_valid urls
    (.ok ((classification_per_matching post urls).map Prod.fst))

end GoogleSafeBrowsing

/-! ## Derived predicates used in statements -/

/-- Membership status of a host string as decided by a host factory and a
service membership primitive: a host the factory rejects (with any error) is
not a member. -/
def host_listed (factory : String → Except PyError HostValue)
    (svc_contains : HostValue → Bool) (s : String) : Bool :=
  match factory s with
  | .ok h => svc_contains h
  | .error _ => false

/-- Membership status of the host extracted from a url. -/
def url_host_listed (factory : String → Except PyError HostValue)
    (svc_contains : HostValue → Bool) (host_of : String → String)
    (u : String) : Bool :=
  host_listed factory svc_contains (host_of u)

/-! ## Helper lemmas -/

/-- Concatenation of strings is associative. -/
theorem string_append_assoc (a b c : String) : a ++ b ++ c = a ++ (b ++ c) := by
  apply String.ext
  simp [String.data_append]

/-- The modelled general host factory fails only with `InvalidHostError`. -/
theorem hostname_or_ip_only_invalid_host (s : String) (e : PyError)
    (h : hostname_or_ip s = .error e) : ∃ m, e = .invalidHost m := by
  unfold hostname_or_ip at h
  cases hip : parse_ip4 s <;> rw [hip] at h
  · cases hh : parse_hostname s <;> rw [hh] at h
    · injection h with h
      exact ⟨_, h.symm⟩
    · cases h
  · cases h

/-- Unfolding of `HostList.contains` on a string that passes validation, for
a factory that can only fail with `InvalidHostError`. -/
theorem hostlist_contains_eq_of_valid (host_valid : String → Bool)
    (factory : String → Except PyError HostValue)
    (svc_contains : HostValue → Bool) (s : String)
    (hv : host_valid s = true)
    (hfac : ∀ e, factory s = .error e → ∃ m, e = .invalidHost m) :
    HostList.contains host_valid factory svc_contains s
      = .ok (host_listed factory svc_contains s) := by
  cases hf : factory s with
  | ok h => simp [HostList.contains, host_listed, hv, hf]
  | error e =>
    obtain ⟨m, rfl⟩ := hfac e hf
    simp [HostList.contains, host_listed, hv, hf]

/-- The filter scan of `HostList.filter_matching` computes an ordinary
ordered filter when every extracted host passes validation. -/
theorem filter_matching_scan_eq (host_valid : String → Bool)
    (factory : String → Except PyError HostValue)
    (svc_contains : HostValue → Bool) (host_of : String → String) :
    ∀ urls : List String, (∀ u ∈ urls, host_valid (host_of u) = true) →
    (∀ s e, factory s = .error e → ∃ m, e = .invalidHost m) →
    HostList.filter_matching_scan host_valid factory svc_contains host_of urls
      = .ok (urls.filter (url_host_listed factory svc_contains host_of))
  | [], _, _ => rfl
  | u :: rest, hh, hfac => by
    have hc := hostlist_contains_eq_of_valid host_valid factory svc_contains
      (host_of u) (hh u (by simp)) (hfac (host_of u))
    have ih := filter_matching_scan_eq host_valid factory svc_contains host_of rest
      (fun v hv => hh v (by simp [hv])) hfac
    simp only [HostList.filter_matching_scan, hc, ih]
    cases hb : host_listed factory svc_contains (host_of u) <;>
      simp [hb, List.filter_cons, url_host_listed] <;> rfl

/-- Concatenating the chunks of the safe-browsing query recovers the
deduplicated url list. -/
theorem gsb_chunks_flatten (l : List String) :
    (GoogleSafeBrowsing.chunks l).flatten = l := by
  induction l using GoogleSafeBrowsing.chunks.induct with
  | case1 => simp [GoogleSafeBrowsing.chunks]
  | case2 u rest ih =>
    rw [GoogleSafeBrowsing.chunks]
    simp only [List.flatten_cons, ih]
    simp [List.take_append_drop]

/-- Every chunk of the safe-browsing query is nonempty and holds at most
`max_urls_per_request` urls. -/
theorem gsb_chunks_sizes (l : List String) (c : List String)
    (hc : c ∈ GoogleSafeBrowsing.chunks l) :
    c ≠ [] ∧ c.length ≤ GoogleSafeBrowsing.max_urls_per_request := by
  induction l using GoogleSafeBrowsing.chunks.induct with
  | case1 => simp [GoogleSafeBrowsing.chunks] at hc
  | case2 u rest ih =>
    rw [GoogleSafeBrowsing.chunks] at hc
    rcases List.mem_cons.1 hc with h | h
    · subst h
      refine ⟨by simp, ?_⟩
      simp only [List.length_cons, List.length_take]
      have h500 : GoogleSafeBrowsing.max_urls_per_request = 500 := rfl
      omega
    · exact ih h

/-- The yield-if-200 loop of the safe-browsing query is the filter of the
once-per-chunk post trace. -/
theorem gsb_query_scan_eq_filter (post : List String → GsbResponse) :
    ∀ cs : List (List String),
    GoogleSafeBrowsing.query_scan post cs
      = (cs.map (fun c => (c, post c))).filter (fun p => p.2.status_code == 200)
  | [] => rfl
  | c :: rest => by
    have ih := gsb_query_scan_eq_filter post rest
    simp only [GoogleSafeBrowsing.query_scan, ih, List.map_cons, List.filter_cons]
    cases h : (post c).status_code == 200 <;> simp [h]

/-- Occurrences in a concatenation, summed chunk by chunk. -/
theorem count_flatten_eq_sum (a : String) :
    ∀ ls : List (List String), ls.flatten.count a = (ls.map (fun c => c.count a)).sum
  | [] => rfl
  | c :: rest => by
    simp only [List.flatten_cons, List.count_append, List.map_cons, List.sum_cons,
      count_flatten_eq_sum a rest]

/-! ## Claims -/

/-- C1: the claim says that adding a host equal to, or a subdomain of, an
existing member returns normally and leaves the member set unchanged (so
adding "b.com" then "a.b.com" yields exactly the member "b.com", and add is
idempotent).  The code violates this: `HostCollection.add` evaluates
`host_obj.is_subdomain()` with no argument (line 416), so the first scan
iteration raises `TypeError` whenever the collection is nonempty.  This
theorem evaluates the translation on the claim's own scenario: the first
add succeeds, the subdomain add raises `TypeError` instead of being a no-op,
and re-adding the same host also raises instead of being idempotent; the
final conjunct checks that the added value is indeed a subdomain of the
existing member, so the claim's hypothesis holds at this input. -/
theorem add_on_subsumed_value_raises_type_error :
    HostCollection.init "hc" ["spam"] [] = .ok ⟨"hc", ["spam"], []⟩ ∧
    HostCollection.add_value ⟨"hc", ["spam"], []⟩ "b.com"
      = .ok ⟨"hc", ["spam"], [.hostname ["b", "com"]]⟩ ∧
    HostCollection.add_value ⟨"hc", ["spam"], [.hostname ["b", "com"]]⟩ "a.b.com"
      = .error (.typeError HostCollection.is_subdomain_arity_msg) ∧
    HostCollection.add_value ⟨"hc", ["spam"], [.hostname ["b", "com"]]⟩ "b.com"
      = .error (.typeError HostCollection.is_subdomain_arity_msg) ∧
    (HostValue.hostname ["a", "b", "com"]).is_subdomain (.hostname ["b", "com"]) = true :=
  ⟨rfl, rfl, rfl, rfl, rfl⟩

/-- C2: the claim says that adding a superdomain of existing members removes
every subsumed member and inserts the new value, so that after adding
"a.b.com" then "b.com" the only member is "b.com".  The code violates this:
the zero-argument `host_obj.is_subdomain()` call at line 416 raises
`TypeError` before the superdomain-removal branch (lines 419-421) can ever
run — and that branch, were it reached, ends the scan with `break` after
removing a single member.  This theorem evaluates the translation on the
claim's scenario: adding "a.b.com" to the empty collection succeeds, and the
subsequent add of the superdomain "b.com" raises `TypeError` instead of
replacing the member. -/
theorem add_on_superdomain_value_raises_type_error :
    HostCollection.add_value ⟨"hc", ["spam"], []⟩ "a.b.com"
      = .ok ⟨"hc", ["spam"], [.hostname ["a", "b", "com"]]⟩ ∧
    (HostValue.hostname ["a", "b", "com"]).is_subdomain (.hostname ["b", "com"]) = true ∧
    HostCollection.add_value ⟨"hc", ["spam"], [.hostname ["a", "b", "com"]]⟩ "b.com"
      = .error (.typeError HostCollection.is_subdomain_arity_msg) :=
  ⟨rfl, rfl, rfl⟩

/-- C3: the claim says constructing `HostCollection(identifier,
classification, hosts)` succeeds and yields the same member set as an empty
construction followed by `add` of each host in order.  The code violates
this: `__init__` runs the `self.add(host_value)` loop (lines 390-391) before
`super().__init__` (line 393) assigns `self._host_factory`, so the first
initial host raises `AttributeError`.  This theorem evaluates the
translation: construction with one initial host raises `AttributeError`,
while the empty construction followed by the same single `add` succeeds. -/
theorem init_with_nonempty_hosts_raises_attribute_error :
    HostCollection.init "hc" ["spam"] ["b.com"]
      = .error (.attributeError HostCollection.host_factory_attr_msg) ∧
    HostCollection.init "hc" ["spam"] [] = .ok ⟨"hc", ["spam"], []⟩ ∧
    HostCollection.add_value ⟨"hc", ["spam"], []⟩ "b.com"
      = .ok ⟨"hc", ["spam"], [.hostname ["b", "com"]]⟩ :=
  ⟨rfl, rfl, rfl⟩

/-- C5 counterexample: the claim says `__contains__` returns `False`, and
never raises `InvalidHostError`, for every host string whose construction by
the host factory fails with `InvalidHostError`.  The string "-e" is such a
string for a `HostCollection` (its factory `hostname_or_ip` rejects it), yet
`__contains__` raises `InvalidHostError` from its `accepts_valid_host`
decorator, because "-e" also fails the general host-validity check that
runs before the factory. -/
theorem contains_invalid_host_counterexample :
    hostname_or_ip "-e" = .error (.invalidHost (invalid_host_msg "-e")) ∧
    HostCollection.contains ⟨"demo", ["spam"], [.hostname ["b", "com"]]⟩ "-e"
      = .error (.invalidHost (decorator_host_msg "-e")) ∧
    HostCollection.contains ⟨"demo", ["spam"], [.hostname ["b", "com"]]⟩ "-e"
      ≠ .ok false :=
  ⟨rfl, rfl, by decide⟩

/-- C5 (amended): for every host-list service and every host string that
passes the general host-validity check, if the service's host factory
rejects the string with `InvalidHostError` then `__contains__` degrades the
error to `False` instead of propagating it. -/
theorem contains_factory_rejection_returns_false (host_valid : String → Bool)
    (factory : String → Except PyError HostValue)
    (svc_contains : HostValue → Bool) (s m : String)
    (hv : host_valid s = true)
    (hf : factory s = .error (.invalidHost m)) :
    HostList.contains host_valid factory svc_contains s = .ok false := by
  simp [HostList.contains, hv, hf]

/-- Witness for C5: a restricted factory that rejects every value, applied
to the generally valid host string "a.com". -/
theorem contains_factory_rejection_returns_false_witness :
    is_valid_host "a.com" = true ∧
    HostList.contains is_valid_host
      (fun v => .error (.invalidHost (invalid_host_msg v)))
      (fun _ => true) "a.com" = .ok false :=
  ⟨by decide,
    contains_factory_rejection_returns_false is_valid_host
      (fun v => .error (.invalidHost (invalid_host_msg v)))
      (fun _ => true) "a.com" (invalid_host_msg "a.com") (by decide) rfl⟩

/-- C9: for every host-list service, a host string that passes the general
host-validity check but whose construction by the service's own host
factory fails with `InvalidHostError` makes `lookup` return `None` rather
than raise; consequently a non-`None` lookup result implies that the
factory accepted the input. -/
theorem lookup_factory_rejection_returns_none (host_valid : String → Bool)
    (factory : String → Except PyError HostValue)
    (get_match : HostValue → Except PyError (Option HostValue × Option (List String)))
    (source_id s : String) :
    (∀ m, host_valid s = true → factory s = .error (.invalidHost m) →
      HostList.lookup host_valid factory get_match source_id s = .ok none) ∧
    (∀ item, HostList.lookup host_valid factory get_match source_id s = .ok (some item) →
      ∃ h, factory s = .ok h) := by
  constructor
  · intro m hv hf
    simp [HostList.lookup, hv, hf]
  · intro item hl
    by_cases hv : host_valid s = true
    · cases hfac : factory s with
      | ok h => exact ⟨h, rfl⟩
      | error e =>
        cases e <;> simp [HostList.lookup, hv, hfac] at hl
    · simp [HostList.lookup, hv] at hl

/-- Witness for C9: a restricted factory rejecting every value, applied to
the generally valid host string "a.com"; lookup returns `None`. -/
theorem lookup_factory_rejection_returns_none_witness :
    HostList.lookup is_valid_host
      (fun v => .error (.invalidHost (invalid_host_msg v)))
      (fun _ => .ok (none, none)) "svc" "a.com" = .ok none :=
  (lookup_factory_rejection_returns_none is_valid_host
      (fun v => .error (.invalidHost (invalid_host_msg v)))
      (fun _ => .ok (none, none)) "svc" "a.com").1
    (invalid_host_msg "a.com") (by decide) rfl

/-- C4: for a `HostCollection`, the query-matches-member relation used by
both `_contains` and `_get_match_and_classification` is exactly "the query
equals the member or is a subdomain of it"; `_contains` holds exactly when
the match is non-`None`; when some member matches, the match operation
returns a matched member together with the collection's single shared
classification, and `lookup` wraps that member's text with the same
classification; when no member matches, the match operation returns
`(None, None)` and `lookup` returns `None`. -/
theorem hostcollection_match_spec (c : HostCollection) (q : HostValue) (s : String) :
    (∀ h, HostCollection.member_match q h = (q == h || q.is_subdomain h)) ∧
    c.contains_primitive q = (c.get_match_and_classification q).1.isSome ∧
    ((∃ h ∈ c.hosts, HostCollection.member_match q h = true) →
      ∃ h, h ∈ c.hosts ∧ HostCollection.member_match q h = true ∧
        c.get_match_and_classification q = (some h, some c.classification)) ∧
    ((∀ h ∈ c.hosts, HostCollection.member_match q h = false) →
      c.get_match_and_classification q = (none, none)) ∧
    (is_valid_host s = true → hostname_or_ip s = .ok q →
      ((∃ h ∈ c.hosts, HostCollection.member_match q h = true) →
        ∃ h, h ∈ c.hosts ∧ HostCollection.member_match q h = true ∧
          c.lookup s = .ok (some ⟨h.to_unicode, c.identifier, some c.classification⟩)) ∧
      ((∀ h ∈ c.hosts, HostCollection.member_match q h = false) →
        c.lookup s = .ok none)) := by
  have hrel : ∀ h, HostCollection.member_match q h = (q == h || q.is_subdomain h) := by
    intro h
    simp [HostCollection.member_match, Bool.or_comm]
  have hmatch : (∃ h ∈ c.hosts, HostCollection.member_match q h = true) →
      ∃ h, h ∈ c.hosts ∧ HostCollection.member_match q h = true ∧
        c.get_match_and_classification q = (some h, some c.classification) := by
    intro hex
    cases hf : c.hosts.find? (HostCollection.member_match q) with
    | none =>
      rcases hex with ⟨h, hmem, hmm⟩
      have hn := List.find?_eq_none.1 hf h hmem
      exact absurd hmm hn
    | some h =>
      exact ⟨h, List.mem_of_find?_eq_some hf, List.find?_some hf,
        by simp [HostCollection.get_match_and_classification, hf]⟩
  have hnone : (∀ h ∈ c.hosts, HostCollection.member_match q h = false) →
      c.get_match_and_classification q = (none, none) := by
    intro hall
    have hf : c.hosts.find? (HostCollection.member_match q) = none :=
      List.find?_eq_none.2 (fun x hx => by simp [hall x hx])
    simp [HostCollection.get_match_and_classification, hf]
  have hcp : c.contains_primitive q = (c.get_match_and_classification q).1.isSome := by
    cases hf : c.hosts.find? (HostCollection.member_match q) with
    | none =>
      have hany : c.hosts.any (HostCollection.member_match q) = false := by
        cases hA : c.hosts.any (HostCollection.member_match q) with
        | false => rfl
        | true =>
          obtain ⟨x, hx, hpx⟩ := List.any_eq_true.1 hA
          exact absurd hpx (List.find?_eq_none.1 hf x hx)
      simp [HostCollection.contains_primitive, HostCollection.get_match_and_classification,
        hf, hany]
    | some h =>
      have hany : c.hosts.any (HostCollection.member_match q) = true :=
        List.any_eq_true.2 ⟨h, List.mem_of_find?_eq_some hf, List.find?_some hf⟩
      simp [HostCollection.contains_primitive, HostCollection.get_match_and_classification,
        hf, hany]
  refine ⟨hrel, hcp, hmatch, hnone, fun hv hfac => ⟨?_, ?_⟩⟩
  · intro hex
    obtain ⟨h, hmem, hmm, hget⟩ := hmatch hex
    refine ⟨h, hmem, hmm, ?_⟩
    simp [HostCollection.lookup, HostList.lookup, hv, hfac, hget]
  · intro hall
    have hget := hnone hall
    simp [HostCollection.lookup, HostList.lookup, hv, hfac, hget]

/-- Witness for C4: on the collection with the single member "b.com",
looking up the subdomain "a.b.com" returns the member's text with the
shared classification, and looking up the unrelated "x.org" returns
`None`. -/
theorem hostcollection_match_spec_witness :
    HostCollection.lookup ⟨"demo", ["spam"], [.hostname ["b", "com"]]⟩ "a.b.com"
      = .ok (some ⟨"b.com", "demo", some ["spam"]⟩) ∧
    HostCollection.lookup ⟨"demo", ["spam"], [.hostname ["b", "com"]]⟩ "x.org"
      = .ok none := by
  constructor
  · have H := hostcollection_match_spec ⟨"demo", ["spam"], [.hostname ["b", "com"]]⟩
      (.hostname ["a", "b", "com"]) "a.b.com"
    obtain ⟨h, hmem, -, heq⟩ := (H.2.2.2.2 (by decide) (by rfl)).1
      ⟨.hostname ["b", "com"], by decide, by decide⟩
    rw [List.mem_singleton] at hmem
    subst hmem
    exact heq
  · have H := hostcollection_match_spec ⟨"demo", ["spam"], [.hostname ["b", "com"]]⟩
      (.hostname ["x", "org"]) "x.org"
    exact (H.2.2.2.2 (by decide) (by rfl)).2 (by decide)

/-- C6: when any input URL fails the external URL-validity predicate, every
bulk operation (`any_match`, `lookup_matching`, `filter_matching`, both of
`HostList` and of `GoogleSafeBrowsing`) fails with the URL-validity error of
the `accepts_valid_urls` decorator; the result is the same error for every
membership primitive, factory and transport, so no per-host lookup or POST
influences it — the error precedes any lookup. -/
theorem bulk_operations_reject_invalid_urls (url_valid : String → Bool)
    (urls : List String) (hbad : ∃ u ∈ urls, url_valid u = false) :
    (∀ (host_valid : String → Bool) (factory : String → Except PyError HostValue)
        (svc_contains : HostValue → Bool) (host_of : String → String),
      HostList.any_match url_valid host_valid factory svc_contains host_of urls
        = .error (.invalidURL invalid_urls_msg)) ∧
    (∀ (host_valid : String → Bool) (factory : String → Except PyError HostValue)
        (get_match : HostValue → Except PyError (Option HostValue × Option (List String)))
        (source_id : String) (host_of : String → String),
      HostList.lookup_matching url_valid host_valid factory get_match source_id host_of urls
        = .error (.invalidURL invalid_urls_msg)) ∧
    (∀ (host_valid : String → Bool) (factory : String → Except PyError HostValue)
        (svc_contains : HostValue → Bool) (host_of : String → String),
      HostList.filter_matching url_valid host_valid factory svc_contains host_of urls
        = .error (.invalidURL invalid_urls_msg)) ∧
    (∀ post, GoogleSafeBrowsing.any_match url_valid post urls
        = .error (.invalidURL invalid_urls_msg)) ∧
    (∀ post, GoogleSafeBrowsing.lookup_matching url_valid post urls
        = .error (.invalidURL invalid_urls_msg)) ∧
    (∀ post, GoogleSafeBrowsing.filter_matching url_valid post urls
        = .error (.invalidURL invalid_urls_msg)) := by
  have hall : urls.all url_valid = false := by
    rcases hbad with ⟨u, hu, hvu⟩
    cases hA : urls.all url_valid with
    | false => rfl
    | true =>
      have ht := List.all_eq_true.1 hA u hu
      rw [hvu] at ht
      cases ht
  refine ⟨?_, ?_, ?_, ?_, ?_, ?_⟩ <;> intros <;>
    simp [HostList.any_match, HostList.lookup_matching, HostList.filter_matching,
      GoogleSafeBrowsing.any_match, GoogleSafeBrowsing.lookup_matching,
      GoogleSafeBrowsing.filter_matching, accepts_valid_urls, hall]

/-- Witness for C6: a one-URL sequence rejected by the validity predicate
makes `filter_matching` of a host list and `any_match` of the safe-browsing
client fail with the URL-validity error. -/
theorem bulk_operations_reject_invalid_urls_witness :
    HostList.filter_matching (fun _ => false) is_valid_host hostname_or_ip
      (fun _ => true) (fun u => u) ["http://a.com"]
      = .error (.invalidURL invalid_urls_msg) ∧
    GoogleSafeBrowsing.any_match (fun _ => false) (fun _ => ⟨200, ""⟩) ["http://a.com"]
      = .error (.invalidURL invalid_urls_msg) := by
  have H := bulk_operations_reject_invalid_urls (fun _ => false) ["http://a.com"]
    ⟨"http://a.com", by simp, rfl⟩
  exact ⟨H.2.2.1 is_valid_host hostname_or_ip (fun _ => true) (fun u => u),
    H.2.2.2.1 (fun _ => ⟨200, ""⟩)⟩

/-- C7: on a sequence of URLs that all pass the validity predicate and whose
extracted hosts all pass host validation, `filter_matching` returns exactly
the input URLs whose extracted host is listed, in the input order (an
ordered filter of the input sequence). -/
theorem filter_matching_filters_in_order (url_valid host_valid : String → Bool)
    (factory : String → Except PyError HostValue) (svc_contains : HostValue → Bool)
    (host_of : String → String) (urls : List String)
    (hurls : ∀ u ∈ urls, url_valid u = true)
    (hhosts : ∀ u ∈ urls, host_valid (host_of u) = true)
    (hfac : ∀ s e, factory s = .error e → ∃ m, e = .invalidHost m) :
    HostList.filter_matching url_valid host_valid factory svc_contains host_of urls
      = .ok (urls.filter (url_host_listed factory svc_contains host_of)) := by
  have hall : urls.all url_valid = true := List.all_eq_true.2 hurls
  rw [HostList.filter_matching, accepts_valid_urls]
  rw [if_pos hall]
  exact filter_matching_scan_eq host_valid factory svc_contains host_of urls hhosts hfac

/-- Witness for C7: filtering three URLs (standing directly for their hosts)
against the collection with the single member "b.com" keeps exactly the
matching ones, in input order. -/
theorem filter_matching_filters_in_order_witness :
    HostList.filter_matching (fun _ => true) is_valid_host hostname_or_ip
      (HostCollection.contains_primitive ⟨"demo", ["spam"], [.hostname ["b", "com"]]⟩)
      (fun u => u) ["a.b.com", "x.org", "b.com"]
      = .ok ["a.b.com", "b.com"] := by
  have H := filter_matching_filters_in_order (fun _ => true) is_valid_host hostname_or_ip
    (HostCollection.contains_primitive ⟨"demo", ["spam"], [.hostname ["b", "com"]]⟩)
    (fun u => u) ["a.b.com", "x.org", "b.com"]
    (fun u _ => rfl) (by decide) (fun s e he => hostname_or_ip_only_invalid_host s e he)
  rw [H]
  rfl

/-- C8: when decoding a listing code raises `UnknownCodeError`, the DNSBL
match operation re-raises an `UnknownCodeError` whose message is the
original message followed by a line naming the service identifier (so it
contains both), rather than swallowing the error or returning a no-match;
the error propagates through `lookup` unchanged. -/
theorem dnsbl_unknown_code_reraised_with_source (identifier : String)
    (cmap : Nat → Except PyError (List String)) (answer : List String)
    (host_object : HostValue) (m : String)
    (h : DNSBL.collect_classification cmap answer = .error (.unknownCode m)) :
    DNSBL.get_match_and_classification identifier cmap (some answer) host_object
      = .error (.unknownCode (m ++ "\nSource:" ++ identifier)) ∧
    (∃ tail, m ++ "\nSource:" ++ identifier = m ++ tail) ∧
    (∃ front, m ++ "\nSource:" ++ identifier = front ++ identifier) ∧
    (∀ (host_valid : String → Bool) (factory : String → Except PyError HostValue)
        (source_id s : String) (hq : HostValue),
      host_valid s = true → factory s = .ok hq →
      HostList.lookup host_valid factory
        (fun v => DNSBL.get_match_and_classification identifier cmap (some answer) v)
        source_id s = .error (.unknownCode (m ++ "\nSource:" ++ identifier))) := by
  have hbranch : ∀ v : HostValue,
      DNSBL.get_match_and_classification identifier cmap (some answer) v
        = .error (.unknownCode (m ++ "\nSource:" ++ identifier)) := by
    intro v
    simp [DNSBL.get_match_and_classification, h]
  refine ⟨hbranch host_object,
    ⟨"\nSource:" ++ identifier, string_append_assoc m "\nSource:" identifier⟩,
    ⟨m ++ "\nSource:", rfl⟩, ?_⟩
  intro host_valid factory source_id s hq hv hf
  simp [HostList.lookup, hv, hf, hbranch hq]

/-- Witness for C8: a classification map that rejects the code 5 makes the
match operation for the answer record "127.0.0.5" fail with the re-labelled
`UnknownCodeError`. -/
theorem dnsbl_unknown_code_reraised_with_source_witness :
    DNSBL.get_match_and_classification "test.dnsbl"
      (fun code => if code == 2 then .ok ["spam"] else .error (.unknownCode "Unknown code"))
      (some ["127.0.0.5"]) (.hostname ["t1", "pl"])
      = .error (.unknownCode ("Unknown code" ++ "\nSource:" ++ "test.dnsbl")) :=
  (dnsbl_unknown_code_reraised_with_source "test.dnsbl"
    (fun code => if code == 2 then .ok ["spam"] else .error (.unknownCode "Unknown code"))
    ["127.0.0.5"] (.hostname ["t1", "pl"]) "Unknown code" rfl).1

/-- C10: the safe-browsing internal query first removes duplicate URLs (the
deduplicated list is duplicate-free and has the same members as the input),
then partitions it into consecutive chunks — their concatenation is exactly
the deduplicated list, every chunk is nonempty with at most
`max_urls_per_request` (500) URLs, and every deduplicated URL occurs in
exactly one chunk — and the produced matches are exactly the
once-per-chunk post trace restricted to the chunks whose response status is
200. -/
theorem gsb_query_dedup_chunk_spec (post : List String → GsbResponse)
    (urls : List String) :
    urls.dedup.Nodup ∧
    (∀ u, u ∈ urls.dedup ↔ u ∈ urls) ∧
    (GoogleSafeBrowsing.chunks urls.dedup).flatten = urls.dedup ∧
    (∀ c ∈ GoogleSafeBrowsing.chunks urls.dedup,
      c ≠ [] ∧ c.length ≤ GoogleSafeBrowsing.max_urls_per_request) ∧
    (∀ u ∈ urls.dedup,
      ((GoogleSafeBrowsing.chunks urls.dedup).map (fun c => c.count u)).sum = 1) ∧
    GoogleSafeBrowsing.query post urls
      = ((GoogleSafeBrowsing.chunks urls.dedup).map (fun c => (c, post c))).filter
          (fun p => p.2.status_code == 200) := by
  refine ⟨List.nodup_dedup urls, fun u => List.mem_dedup, gsb_chunks_flatten _,
    fun c hc => gsb_chunks_sizes _ c hc, ?_, gsb_query_scan_eq_filter post _⟩
  intro u hu
  have h1 : (GoogleSafeBrowsing.chunks urls.dedup).flatten.count u = 1 := by
    rw [gsb_chunks_flatten]
    exact List.count_eq_one_of_mem (List.nodup_dedup urls) hu
  rw [← count_flatten_eq_sum u (GoogleSafeBrowsing.chunks urls.dedup)]
  exact h1

/-- Witness for C10: a three-URL input with one duplicate is deduplicated to
two URLs forming a single chunk, the duplicated URL occurs in exactly one
chunk, and with an all-200 transport the query yields exactly that chunk. -/
theorem gsb_query_dedup_chunk_spec_witness :
    (["http://a.com", "http://b.com", "http://a.com"] : List String).dedup
        = ["http://b.com", "http://a.com"] ∧
    ((GoogleSafeBrowsing.chunks
        (["http://a.com", "http://b.com", "http://a.com"] : List String).dedup).map
          (fun c => c.count "http://a.com")).sum = 1 ∧
    GoogleSafeBrowsing.query (fun _ => ⟨200, "malware"⟩)
        ["http://a.com", "http://b.com", "http://a.com"]
      = [(["http://b.com", "http://a.com"], ⟨200, "malware"⟩)] := by
  have H := gsb_query_dedup_chunk_spec (fun _ => (⟨200, "malware"⟩ : GsbResponse))
    ["http://a.com", "http://b.com", "http://a.com"]
  have hd : (["http://a.com", "http://b.com", "http://a.com"] : List String).dedup
      = ["http://b.com", "http://a.com"] := by decide
  refine ⟨hd, H.2.2.2.2.1 "http://a.com" (by decide), ?_⟩
  rw [H.2.2.2.2.2, hd]
  simp [GoogleSafeBrowsing.chunks, GoogleSafeBrowsing.max_urls_per_request]

end SpamLists
